import Mathlib

/-!
Shallow embedding of the monitoring core of the `mcp_server` repository.

The embedding follows the source files:
  * `src/shared/state.rs`      — `AppState`, `ToolCall`, `MetricValue`, `McpStatus`,
    `SystemEvent`, `record_tool_call`, `update_metric`, `get_tool_calls`.
  * `src/dashboard/websocket.rs` — `WebSocketRateLimiter::check_rate_limit`,
    `validate_websocket_origin`, the WebSocket and SSE event serializers.

Modelling conventions:
  * `Uuid` values and `DateTime<Utc>` instants are modelled as `Nat` (their exact
    representation never matters for the verified properties; instants are handed to
    the functions as explicit parameters, mirroring the calls to `Utc::now()` /
    `Instant::now()` in the source).
  * `f64` values (gauges, histogram observations) are modelled as `Rat`; no claim
    performs floating-point arithmetic on them.
  * `serde_json::Value` is modelled by the inductive `JVal` below; serde object maps
    are association lists queried by key.
  * `DashMap<String, MetricValue>` is modelled as a function `String → Option MetricValue`;
    each individual `get` or `insert` on a `DashMap` is atomic, and this atomicity
    granularity is what the interleaving machine for the counter race (see `RaceState`)
    reflects.
  * `broadcast::Sender::send` returns an error when there are no receivers; the
    subscriber count and the list of successfully published events are part of the
    modelled state.
-/

namespace Mcp

/-- Modelled `serde_json::Value` (only the shapes the dashboard produces). -/
inductive JVal where
  | str (s : String)
  | nat (n : Nat)
  | bool (b : Bool)
  | obj (fields : List (String × JVal))
deriving Repr

/-- Field list of a JSON value (empty for non-objects). -/
def JVal.fields : JVal → List (String × JVal)
  | .obj fs => fs
  | _ => []

/-- Lookup of a field of a JSON object by key, as serde map lookup does. -/
def getField (fs : List (String × JVal)) (k : String) : Option JVal :=
  (fs.find? (fun p => p.1 = k)).map (·.2)

/-- Result of a tool call execution (`ToolCallResult` in `state.rs`). -/
inductive ToolCallResult where
  | Success (value : JVal)
  | Error (message : String)
deriving Repr

mutual
/-- Rendering of a JSON value to a string, standing in for
`serde_json::Value::to_string` (only used to fill the `result_string`
compatibility field; no claim depends on the exact rendering). -/
def JVal.render : JVal → String
  | .str s => "\"" ++ s ++ "\""
  | .nat n => toString n
  | .bool b => toString b
  | .obj fs => "\x7b" ++ JVal.renderFields fs ++ "\x7d"
/-- Rendering of the field list of a JSON object. -/
def JVal.renderFields : List (String × JVal) → String
  | [] => ""
  | (k, v) :: rest => "\"" ++ k ++ "\":" ++ JVal.render v ++
      (if rest.isEmpty then "" else ",") ++ JVal.renderFields rest
end

/-- Record of a tool call execution (`ToolCall` in `state.rs`). `id` models the
`Uuid`, `timestamp` the `DateTime<Utc>`, `execution_time` the `Duration` in
milliseconds. -/
structure ToolCall where
  id : Nat
  name : String
  tool_name : String
  arguments : JVal
  timestamp : Nat
  duration_ms : Option Nat
  execution_time : Nat
  result : Option ToolCallResult
  result_string : Option String
  success : Bool
  error : Option String
deriving Repr

/-- Model of `ToolCall::new`; `Uuid::new_v4()` and `Utc::now()` are passed in as
the parameters `id` and `now`. -/
def ToolCall.new (id now : Nat) (name : String) (arguments : JVal) : ToolCall where
  id := id
  name := name
  tool_name := name
  arguments := arguments
  timestamp := now
  duration_ms := none
  execution_time := 0
  result := none
  result_string := none
  success := false
  error := none

/-- Model of `ToolCall::complete`: mark a tool call as completed with a result. -/
def ToolCall.complete (c : ToolCall) (result : ToolCallResult) (duration_ms : Nat) :
    ToolCall :=
  let c := { c with
    result := some result
    duration_ms := some duration_ms
    execution_time := duration_ms }
  match result with
  | .Success value =>
      { c with success := true, result_string := some value.render, error := none }
  | .Error msg =>
      { c with success := false, result_string := none, error := some msg }

/-- Number of values of a `u64`; counter arithmetic is performed modulo this
(the wrapping semantics of release builds; debug builds would panic on
overflow instead). -/
def u64Size : Nat := 2 ^ 64

/-- Different types of metrics that can be collected (`MetricValue` in
`state.rs`). The `Counter` payload is a `u64` in the source: it is modelled as
a `Nat`, with every arithmetic step on it taken `% u64Size`. -/
inductive MetricValue where
  | Counter (c : Nat)
  | Gauge (g : Rat)
  | Histogram (h : List Rat)
deriving DecidableEq, Repr

/-- Tags of the `MetricValue` union, used to talk about a metric's type. -/
inductive MetricTag where
  | counter
  | gauge
  | histogram
deriving DecidableEq, Repr

/-- Tag of a metric value. -/
def MetricValue.tag : MetricValue → MetricTag
  | .Counter _ => .counter
  | .Gauge _ => .gauge
  | .Histogram _ => .histogram

/-- Model of `MetricValue::as_number`. -/
def MetricValue.as_number : MetricValue → Rat
  | .Counter c => (c : Rat)
  | .Gauge g => g
  | .Histogram h => (h.getLast?).getD 0

/-- System events for real-time updates (`SystemEvent`). The dashboard handlers in
`websocket.rs` additionally match a `Custom(String)` escape-hatch variant, which
the spec lists in the `DomainEvent` union, so it is included here. -/
inductive SystemEvent where
  | McpConnected
  | McpDisconnected
  | ToolCalled (name : String) (id : Nat)
  | ResourceAccessed (uri : String)
  | Error (message : String)
  | Custom (payload : String)
deriving DecidableEq, Repr

/-- Server identification information (`ServerInfo`). -/
structure ServerInfo where
  name : String
  version : String
deriving DecidableEq, Repr

/-- MCP server connection and capability status (`McpStatus`). -/
structure McpStatus where
  connected : Bool
  last_heartbeat : Option Nat
  capabilities : List String
  server_info : ServerInfo
  started_at : Nat
deriving DecidableEq, Repr

/-- Model of `McpStatus::default()`; `Utc::now()` and the crate version are the
parameters `now` and `version`. -/
def McpStatus.default (now : Nat) (version : String) : McpStatus where
  connected := true
  last_heartbeat := some now
  capabilities := ["tools", "resources", "logging"]
  server_info := { name := "Rust MCP Server", version := version }
  started_at := now

/-- Information about an active client session (`SessionInfo`). -/
structure SessionInfo where
  id : Nat
  started_at : Nat
  request_count : Nat
  last_activity : Nat
deriving DecidableEq, Repr

/-- Core application state (`AppState`). The broadcast channel `event_tx` is
modelled by `subscriber_count` (the number of live receivers) together with
`published_events` (events accepted by `send`, i.e. delivered to at least one
receiver). -/
structure AppState where
  mcp_status : McpStatus
  active_sessions : List (Nat × SessionInfo)
  subscriber_count : Nat
  published_events : List SystemEvent
  metrics : String → Option MetricValue
  tool_calls : List ToolCall

/-- Model of `AppState::new` (`broadcast::channel(1000)` starts with no
receivers; all containers start empty). -/
def AppState.init (now : Nat) (version : String) : AppState where
  mcp_status := McpStatus.default now version
  active_sessions := []
  subscriber_count := 0
  published_events := []
  metrics := fun _ => none
  tool_calls := []

/-- Pointwise insert on the metrics map, the model of `DashMap::insert` (replaces
whatever value — of whatever tag — was previously stored under the key). -/
def insertMetric (m : String → Option MetricValue) (k : String) (v : MetricValue) :
    String → Option MetricValue :=
  fun k' => if k' = k then some v else m k'

/-- Model of the counter read in `record_tool_call`:
`.get(&metric_key).map(|v| match v.value() ... Counter(c) => *c, _ => 0).unwrap_or(0)`. -/
def counterOrZero : Option MetricValue → Nat
  | some (.Counter c) => c
  | some _ => 0
  | none => 0

/-- Model of `broadcast::Sender::send`: returns `Err(SendError)` when there are no
receivers, otherwise delivers the event. -/
def sendEvent (st : AppState) (e : SystemEvent) : Except String AppState :=
  if st.subscriber_count = 0 then .error "SendError"
  else .ok { st with published_events := st.published_events ++ [e] }

/-- Model of `AppState::record_tool_call`: append to history, emit the event
(ignoring a send error, `let _ = self.event_tx.send(..)`), then bump the
`tool_calls_<name>` counter with a read-then-insert on the metrics map. The
`counter + 1` of the source is a `u64` addition, so it is taken `% u64Size`
(release-build wrapping; a debug build would panic at `u64::MAX` instead). -/
def AppState.record_tool_call (st : AppState) (call : ToolCall) :
    Except String AppState :=
  let st := { st with tool_calls := st.tool_calls ++ [call] }
  let st := match sendEvent st (.ToolCalled call.name call.id) with
    | .ok st' => st'
    | .error _ => st
  let metric_key := "tool_calls_" ++ call.name
  let counter := counterOrZero (st.metrics metric_key)
  let st := { st with
    metrics := insertMetric st.metrics metric_key (.Counter ((counter + 1) % u64Size)) }
  .ok st

/-- Model of `AppState::add_tool_call`. -/
def AppState.add_tool_call (st : AppState) (call : ToolCall) : AppState :=
  { st with tool_calls := st.tool_calls ++ [call] }

/-- Model of `AppState::update_metric`. -/
def AppState.update_metric (st : AppState) (key : String) (value : MetricValue) :
    AppState :=
  { st with metrics := insertMetric st.metrics key value }

/-- Model of `AppState::get_tool_calls`: up to `limit` most recent calls, newest
first (`calls.iter().rev().take(limit)`). -/
def AppState.get_tool_calls (st : AppState) (limit : Nat) : List ToolCall :=
  st.tool_calls.reverse.take limit

/-- Sequential run of `record_tool_call` over a list of records (a failing call
would leave the state unchanged; the theorems show every call succeeds). -/
def recordMany (st : AppState) : List ToolCall → AppState
  | [] => st
  | c :: cs =>
      match st.record_tool_call c with
      | .ok st' => recordMany st' cs
      | .error _ => recordMany st cs

/-- Source addresses (`IpAddr`), modelled as naturals. -/
abbrev IpAddr := Nat

/-- State of `WebSocketRateLimiter.connections`: per-address list of `Instant`
timestamps. An address absent from the `HashMap` is the address mapped to `[]`
(which is also exactly what `entry(ip).or_insert_with(Vec::new)` produces). -/
abbrev RLState := IpAddr → List Nat

/-- Rate limiter for WebSocket connections (`WebSocketRateLimiter`); the
`connections` map is threaded explicitly through the operations. -/
structure WebSocketRateLimiter where
  max_connections_per_ip : Nat
  time_window : Nat
deriving DecidableEq, Repr

/-- Model of `WebSocketRateLimiter::new()`: max 10 connections per IP per
60-second window. -/
def WebSocketRateLimiter.new : WebSocketRateLimiter where
  max_connections_per_ip := 10
  time_window := 60

/-- Model of `entry.retain(|&t| now.duration_since(t) < time_window)`.
`Instant` subtraction saturates at zero, as `Nat` subtraction does. -/
def pruneEntry (window now : Nat) (entry : List Nat) : List Nat :=
  entry.filter (fun t => now - t < window)

/-- Model of `WebSocketRateLimiter::check_rate_limit`: prune the address's
timestamps, reject if the remaining count has reached the limit, otherwise
record `now` and accept. Returns the verdict and the updated map. -/
def check_rate_limit (rl : WebSocketRateLimiter) (st : RLState) (ip : IpAddr)
    (now : Nat) : Bool × RLState :=
  let entry := pruneEntry rl.time_window now (st ip)
  if rl.max_connections_per_ip ≤ entry.length then
    (false, fun a => if a = ip then entry else st a)
  else
    (true, fun a => if a = ip then entry ++ [now] else st a)

/-- Model of `WebSocketRateLimiter::cleanup`: prune every address's timestamps
(in the function model, an address whose list became empty is indistinguishable
from a removed key, which is what `connections.retain(.., !timestamps.is_empty())`
produces). -/
def rlCleanup (rl : WebSocketRateLimiter) (st : RLState) (now : Nat) : RLState :=
  fun a => pruneEntry rl.time_window now (st a)

/-- Metrics-map entry under `key` after a `record_tool_call` (helper for
stating concrete evaluations; `none` on the unreachable error branch). -/
def metricsAfterRecord (st : AppState) (call : ToolCall) (key : String) :
    Option MetricValue :=
  match st.record_tool_call call with
  | .ok st' => st'.metrics key
  | .error _ => none

/-- Run of `check_rate_limit` for one address over a list of call instants,
collecting the verdicts and threading the map. -/
def runCalls (rl : WebSocketRateLimiter) (st : RLState) (ip : IpAddr) :
    List Nat → List Bool × RLState
  | [] => ([], st)
  | t :: ts =>
      let r := check_rate_limit rl st ip t
      let rest := runCalls rl r.2 ip ts
      (r.1 :: rest.1, rest.2)

/-- Configuration slice consumed by `validate_websocket_origin`:
`config.development.enable_cors` and `config.security.websocket_allowed_origins`. -/
structure Config where
  enable_cors : Bool
  websocket_allowed_origins : List String
deriving DecidableEq, Repr

/-- Origin header of an incoming request: `none` when the header is absent,
`some none` when present but not valid as a string (`to_str` fails),
`some (some s)` when present with value `s`. -/
structure HttpRequest where
  origin : Option (Option String)
deriving DecidableEq, Repr

/-- Model of `validate_websocket_origin` in `websocket.rs`. -/
def validate_websocket_origin (req : HttpRequest) (config : Config) : Bool :=
  if config.enable_cors then true
  else
    match req.origin with
    | none => false
    | some none => false
    | some (some origin) => config.websocket_allowed_origins.contains origin

/-- JSON object serialized for an event by the WebSocket handler loop in
`websocket.rs`. `parse` stands for `serde_json::from_str` on custom payloads and
`ts` for the serialization of `chrono::Utc::now()` at send time. -/
def wsEventJson (parse : String → Option JVal) (ts : String) : SystemEvent → JVal
  | .McpConnected =>
      .obj [("type", .str "mcp_connected"), ("timestamp", .str ts)]
  | .McpDisconnected =>
      .obj [("type", .str "mcp_disconnected"), ("timestamp", .str ts)]
  | .ToolCalled name id =>
      .obj [("type", .str "tool_called"), ("name", .str name), ("id", .nat id),
            ("timestamp", .str ts)]
  | .ResourceAccessed uri =>
      .obj [("type", .str "resource_accessed"), ("uri", .str uri),
            ("timestamp", .str ts)]
  | .Error message =>
      .obj [("type", .str "error"), ("message", .str message), ("timestamp", .str ts)]
  | .Custom payload =>
      match parse payload with
      | some json => json
      | none =>
          .obj [("type", .str "custom"), ("payload", .str payload),
                ("timestamp", .str ts)]

/-- Name on the `event:` line of the SSE frame for an event (`sse_handler`). -/
def sseEventName : SystemEvent → String
  | .McpConnected => "mcp_connected"
  | .McpDisconnected => "mcp_disconnected"
  | .ToolCalled _ _ => "tool_called"
  | .ResourceAccessed _ => "resource_accessed"
  | .Error _ => "error"
  | .Custom _ => "custom"

/-- Pre-rendered hypermedia fragment embedded in SSE payloads (`sse_handler`);
`hms` stands for `Utc::now().format("%H:%M:%S")` (whitespace of the source's
multi-line string literals is condensed). -/
def sseHtml (hms : String) : SystemEvent → String
  | .McpConnected =>
      "<div class=\"alert alert-success\" hx-swap-oob=\"afterbegin:#events-container\">" ++
      "<span class=\"timestamp\">" ++ hms ++ "</span>" ++
      "<span class=\"message\">MCP Server Connected</span></div>"
  | .McpDisconnected =>
      "<div class=\"alert alert-warning\" hx-swap-oob=\"afterbegin:#events-container\">" ++
      "<span class=\"timestamp\">" ++ hms ++ "</span>" ++
      "<span class=\"message\">MCP Server Disconnected</span></div>"
  | .ToolCalled name id =>
      "<div class=\"tool-call-event\" hx-swap-oob=\"afterbegin:#tool-calls-live\">" ++
      "<div class=\"tool-call\"><span class=\"timestamp\">" ++ hms ++ "</span>" ++
      "<span class=\"tool-name\">" ++ name ++ "</span>" ++
      "<span class=\"tool-id\">#" ++ toString id ++ "</span>" ++
      "<span class=\"status executing\">Executing...</span></div></div>"
  | .ResourceAccessed uri =>
      "<div class=\"resource-event\" hx-swap-oob=\"afterbegin:#resources-live\">" ++
      "<span class=\"timestamp\">" ++ hms ++ "</span>" ++
      "<span class=\"resource-uri\">" ++ uri ++ "</span>" ++
      "<span class=\"status accessed\">Accessed</span></div>"
  | .Error message =>
      "<div class=\"alert alert-error\" hx-swap-oob=\"afterbegin:#events-container\">" ++
      "<span class=\"timestamp\">" ++ hms ++ "</span>" ++
      "<span class=\"message\">Error: " ++ message ++ "</span></div>"
  | .Custom _ => ""

/-- JSON object placed on the `data:` line of the SSE frame for an event
(`sse_handler`). `parse` stands for `serde_json::from_str` on custom payloads,
`ts` for `Utc::now().to_rfc3339()` and `hms` for `Utc::now().format("%H:%M:%S")`
at this handler's send time. -/
def sseData (parse : String → Option JVal) (ts hms : String) : SystemEvent → JVal
  | .McpConnected =>
      .obj [("type", .str "connected"), ("timestamp", .str ts),
            ("html", .str (sseHtml hms .McpConnected))]
  | .McpDisconnected =>
      .obj [("type", .str "disconnected"), ("timestamp", .str ts),
            ("html", .str (sseHtml hms .McpDisconnected))]
  | .ToolCalled name id =>
      .obj [("type", .str "tool_called"), ("name", .str name), ("id", .nat id),
            ("timestamp", .str ts),
            ("html", .str (sseHtml hms (.ToolCalled name id)))]
  | .ResourceAccessed uri =>
      .obj [("type", .str "resource_accessed"), ("uri", .str uri),
            ("timestamp", .str ts),
            ("html", .str (sseHtml hms (.ResourceAccessed uri)))]
  | .Error message =>
      .obj [("type", .str "error"), ("message", .str message), ("timestamp", .str ts),
            ("html", .str (sseHtml hms (.Error message)))]
  | .Custom payload =>
      match parse payload with
      | some json => json
      | none =>
          .obj [("type", .str "custom"), ("payload", .str payload),
                ("timestamp", .str ts)]

/-- Operations on the status cell (`ArcSwap<McpStatus>`): a whole-value `store`
or a `load`. Each operation is a single atomic action of the cell, so an
arbitrary interleaving of concurrent stores and loads is a sequence of these
operations. -/
inductive StatusOp where
  | store (v : McpStatus)
  | load
deriving Repr

/-- Values stored by a sequence of status-cell operations. -/
def storesOf (ops : List StatusOp) : List McpStatus :=
  ops.filterMap fun
    | .store v => some v
    | .load => none

/-- Values returned by the loads of a sequence of status-cell operations,
starting from current snapshot `cur`. -/
def loadResults (cur : McpStatus) : List StatusOp → List McpStatus
  | [] => []
  | .store v :: ops => loadResults v ops
  | .load :: ops => cur :: loadResults cur ops

/-- Progress of one task through the metric-counter section of
`record_tool_call`, at `DashMap` atomicity: one atomic `get` of the counter
(storing the read value locally), then one atomic `insert` of the incremented
value. -/
inductive TaskPhase where
  | notStarted
  | readDone (c : Nat)
  | finished
deriving DecidableEq, Repr

/-- Shared counter cell (the `Counter` stored under one fixed `tool_calls_<name>`
key) together with the progress of each concurrent `record_tool_call` task. -/
structure RaceState where
  counter : Nat
  tasks : List TaskPhase
deriving DecidableEq, Repr

/-- One scheduler step: run the next atomic action of task `i`. A task that has
not started performs the `get` (reading the current counter, as `counterOrZero`
does when the key holds `Counter(counter)`); a task that has read performs the
`insert` of its locally computed `counter + 1` (`u64` addition, hence taken
`% u64Size`). -/
def stepTask (s : RaceState) (i : Nat) : RaceState :=
  match s.tasks.get? i with
  | some .notStarted => { s with tasks := s.tasks.set i (.readDone s.counter) }
  | some (.readDone c) => { counter := (c + 1) % u64Size, tasks := s.tasks.set i .finished }
  | _ => s

/-- Execution of a schedule (a list of task indices, each occurrence running one
atomic action of that task). -/
def runSchedule (s : RaceState) (sched : List Nat) : RaceState :=
  sched.foldl stepTask s

/-- Initial race state: counter value `c0`, `n` tasks none of which has run. -/
def raceInit (c0 n : Nat) : RaceState where
  counter := c0
  tasks := List.replicate n .notStarted

/-- Concrete sample state for witnesses. -/
def st0 : AppState := AppState.init 0 "1.0.0"

/-- Concrete pending tool call "alpha". -/
def callA : ToolCall := ToolCall.new 1 10 "alpha" (.obj [])

/-- Concrete pending tool call "beta". -/
def callB : ToolCall := ToolCall.new 2 11 "beta" (.obj [])

/-- Concrete second pending tool call named "alpha". -/
def callC : ToolCall := ToolCall.new 3 12 "alpha" (.obj [])

/-- Concrete state whose "tool_calls_alpha" counter sits at `u64::MAX`
(storable directly through the public `update_metric`). -/
def stMax : AppState := st0.update_metric "tool_calls_alpha" (.Counter (u64Size - 1))

/-- Concrete status snapshot distinct from the default one. -/
def sampleStatus : McpStatus where
  connected := false
  last_heartbeat := none
  capabilities := ["tools"]
  server_info := { name := "s", version := "2" }
  started_at := 5

/-- Normal form of `record_tool_call` (helper for the proofs): the result is
always `Ok`, the record is appended, the event is published exactly when there
is at least one subscriber, and the tool's counter key is overwritten with the
read value plus one. -/
theorem record_tool_call_eq (st : AppState) (call : ToolCall) :
    st.record_tool_call call = .ok
      { st with
        tool_calls := st.tool_calls ++ [call]
        published_events :=
          if st.subscriber_count = 0 then st.published_events
          else st.published_events ++ [SystemEvent.ToolCalled call.name call.id]
        metrics :=
          insertMetric st.metrics ("tool_calls_" ++ call.name)
            (.Counter ((counterOrZero (st.metrics ("tool_calls_" ++ call.name)) + 1)
              % u64Size)) } := by
  unfold AppState.record_tool_call sendEvent
  by_cases h : st.subscriber_count = 0 <;> simp [h]

/-- Claim C8: `record_tool_call` always returns `Ok`; with zero subscribers the
publish step is a no-op rather than an error, and a record whose outcome is an
`Error` is still appended to the history and published like any other record. -/
theorem record_tool_call_always_ok (st : AppState) (call : ToolCall) :
    ∃ st', st.record_tool_call call = .ok st'
      ∧ st'.tool_calls = st.tool_calls ++ [call]
      ∧ (st.subscriber_count = 0 → st'.published_events = st.published_events)
      ∧ (st.subscriber_count ≠ 0 →
          st'.published_events =
            st.published_events ++ [SystemEvent.ToolCalled call.name call.id]) := by
  refine ⟨_, record_tool_call_eq st call, rfl, ?_, ?_⟩ <;> intro h <;> simp [h]

/-- Claim C2 (amended): `record_tool_call` appends unconditionally and never
evicts, so the history after the appends contains every prior record followed
by all the appended ones. -/
theorem recordMany_no_eviction (st : AppState) (calls : List ToolCall) :
    (recordMany st calls).tool_calls = st.tool_calls ++ calls := by
  induction calls generalizing st with
  | nil => simp [recordMany]
  | cons c cs ih =>
      rw [recordMany, record_tool_call_eq st c, ih]
      simp

/-- Claim C2 (counterexample): appending three records to an empty history
stores all three and keeps the oldest, so no retention cap of two (or any
smaller bound) is respected and nothing is evicted. -/
theorem history_cap_cex :
    (recordMany st0 [callA, callB, callC]).tool_calls.length = 3
    ∧ (recordMany st0 [callA, callB, callC]).tool_calls.head? = some callA := by
  constructor <;> rfl

/-- Claim C3 (counterexample): `update_metric` writes a `Counter` under "m" and
a later `update_metric` replaces it with a `Gauge`: the metric's tag changes
after its first write. -/
theorem metric_tag_change_cex :
    (((st0.update_metric "m" (.Counter 1)).metrics "m").map MetricValue.tag
        = some .counter)
    ∧ ((((st0.update_metric "m" (.Counter 1)).update_metric "m"
          (.Gauge 2)).metrics "m").map MetricValue.tag = some .gauge) := by
  constructor <;> rfl

/-- Claim C3 (amended): the metric store never enforces tag stability:
`update_metric` unconditionally replaces whatever value (of whatever tag) the
key held, and `record_tool_call` always overwrites its tool's key with a
`Counter`, treating a previous value of a different tag as 0. -/
theorem metric_store_replaces_tags :
    (∀ (st : AppState) (k : String) (v : MetricValue),
      (st.update_metric k v).metrics k = some v)
    ∧ (∀ (st : AppState) (c : ToolCall), ∃ st',
        st.record_tool_call c = .ok st'
        ∧ (st'.metrics ("tool_calls_" ++ c.name)).map MetricValue.tag
            = some .counter) := by
  constructor
  · intro st k v
    simp [AppState.update_metric, insertMetric]
  · intro st c
    refine ⟨_, record_tool_call_eq st c, ?_⟩
    simp [insertMetric, MetricValue.tag]

/-- Claim C5 (counterexample): with the "tool_calls_alpha" counter previously
at `u64::MAX` (storable directly through the public `update_metric`), recording
a call completed as `Error "boom"` leaves the counter at 0, not at the previous
value plus 1: the `u64` increment wraps (a debug build would panic instead). -/
theorem record_error_boom_wrap_cex :
    metricsAfterRecord stMax (callA.complete (.Error "boom") 5) "tool_calls_alpha"
      = some (.Counter 0)
    ∧ some (MetricValue.Counter 0) ≠ some (.Counter ((u64Size - 1) + 1)) := by
  constructor
  · rfl
  · decide

/-- Claim C5 (amended): a record completed with outcome `Error "boom"` and
passed to `record_tool_call` is stored with `success = false` and
`error = "boom"`, and the `tool_calls_<name>` counter is exactly one greater
than before the call (an absent counter reading as 0), provided the previous
value plus one stays below 2^64; at `u64::MAX` the `u64` increment wraps. -/
theorem record_error_boom (st : AppState) (c : ToolCall) (d k : Nat)
    (hk : st.metrics ("tool_calls_" ++ c.name) = some (.Counter k)
        ∨ (st.metrics ("tool_calls_" ++ c.name) = none ∧ k = 0))
    (hlt : k + 1 < u64Size) :
    (c.complete (.Error "boom") d).success = false
    ∧ (c.complete (.Error "boom") d).error = some "boom"
    ∧ ∃ st', st.record_tool_call (c.complete (.Error "boom") d) = .ok st'
        ∧ st'.tool_calls = st.tool_calls ++ [c.complete (.Error "boom") d]
        ∧ st'.metrics ("tool_calls_" ++ c.name) = some (.Counter (k + 1)) := by
  have hname : (c.complete (.Error "boom") d).name = c.name := rfl
  refine ⟨rfl, rfl, _, record_tool_call_eq st _, rfl, ?_⟩
  rw [hname]
  simp only [insertMetric, if_pos rfl]
  rcases hk with h | ⟨h, hk0⟩
  · simp [h, counterOrZero, Nat.mod_eq_of_lt hlt]
  · subst hk0
    simp [h, counterOrZero, Nat.mod_eq_of_lt hlt]

/-- Claim C5 (witness): the scenario run on the initial state with a concrete
pending call completed as `Error "boom"`. -/
theorem record_error_boom_witness :
    ((callA.complete (.Error "boom") 5).success = false)
    ∧ ((callA.complete (.Error "boom") 5).error = some "boom")
    ∧ ∃ st', st0.record_tool_call (callA.complete (.Error "boom") 5) = .ok st'
        ∧ st'.tool_calls = st0.tool_calls ++ [callA.complete (.Error "boom") 5]
        ∧ st'.metrics ("tool_calls_" ++ callA.name) = some (.Counter (0 + 1)) :=
  record_error_boom st0 callA 5 0 (Or.inr ⟨rfl, rfl⟩) (by decide)

/-- Claim C1 (counterexample to the no-lost-update property, exhibiting the
code's race): two concurrent `record_tool_call` calls for the same tool name,
interleaved as read-read-insert-insert (`DashMap::get` of both tasks before
either `DashMap::insert`), both complete, yet the counter ends at 1 instead of
the starting value 0 plus 2 — one increment is lost. -/
theorem counter_race_loses_update :
    (runSchedule (raceInit 0 2) [0, 1, 0, 1]).tasks = [.finished, .finished]
    ∧ (runSchedule (raceInit 0 2) [0, 1, 0, 1]).counter = 1
    ∧ (runSchedule (raceInit 0 2) [0, 1, 0, 1]).counter ≠ 0 + 2 := by
  decide

/-- Unfolding of `storesOf` over a store operation. -/
theorem storesOf_store (v : McpStatus) (ops : List StatusOp) :
    storesOf (.store v :: ops) = v :: storesOf ops := rfl

/-- Unfolding of `storesOf` over a load operation. -/
theorem storesOf_load (ops : List StatusOp) :
    storesOf (.load :: ops) = storesOf ops := rfl

/-- Claim C9: a load of the status cell returns exactly one complete snapshot
that was previously stored, or the initial snapshot; for any sequence of
whole-value stores interleaved with loads, no load result mixes two snapshots. -/
theorem status_load_no_mixing (init : McpStatus) (ops : List StatusOp) :
    ∀ v ∈ loadResults init ops, v = init ∨ v ∈ storesOf ops := by
  induction ops generalizing init with
  | nil => simp [loadResults]
  | cons op ops ih =>
      cases op with
      | store w =>
          intro v hv
          refine Or.inr ?_
          rw [storesOf_store]
          rcases ih w v hv with h | h
          · subst h
            exact List.mem_cons_self _ _
          · exact List.mem_cons_of_mem _ h
      | load =>
          intro v hv
          rcases List.mem_cons.mp hv with h | h
          · exact Or.inl h
          · rcases ih init v h with h' | h'
            · exact Or.inl h'
            · refine Or.inr ?_
              rw [storesOf_load]
              exact h'

/-- Claim C9 (witness): a load after a store of `sampleStatus` returns exactly
that stored snapshot (or the initial one). -/
theorem status_load_no_mixing_witness :
    sampleStatus = McpStatus.default 0 "1.0.0"
    ∨ sampleStatus ∈ storesOf [.store sampleStatus, .load] :=
  status_load_no_mixing (McpStatus.default 0 "1.0.0") [.store sampleStatus, .load]
    sampleStatus (by simp [loadResults])

/-- Claim C7: origin validation accepts everything when development CORS is
enabled; otherwise it accepts exactly when the request carries an Origin header
whose string value is in the configured allow-list, and in particular rejects
every request with no Origin header. -/
theorem origin_validation (req : HttpRequest) (config : Config) :
    (validate_websocket_origin req config = true ↔
      (config.enable_cors = true ∨
        ∃ s, req.origin = some (some s) ∧ s ∈ config.websocket_allowed_origins))
    ∧ (config.enable_cors = false → req.origin = none →
        validate_websocket_origin req config = false) := by
  unfold validate_websocket_origin
  by_cases h : config.enable_cors
  · simp [h]
  · rcases ho : req.origin with _ | so
    · simp [h, ho]
    · rcases so with _ | s <;> simp [h, ho]

/-- Claim C4 (counterexample): for the `McpConnected` event the SSE `data`
object carries type discriminator "connected" while the WebSocket JSON carries
"mcp_connected" — the two payloads do not share the same field values. -/
theorem ws_sse_type_mismatch_cex :
    getField (sseData (fun _ => none) "T" "H" .McpConnected).fields "type" ≠
      getField (wsEventJson (fun _ => none) "T" .McpConnected).fields "type" := by
  have h1 : getField (sseData (fun _ => none) "T" "H" .McpConnected).fields "type"
      = some (.str "connected") := rfl
  have h2 : getField (wsEventJson (fun _ => none) "T" .McpConnected).fields "type"
      = some (.str "mcp_connected") := rfl
  rw [h1, h2]
  simp

/-- Claim C4 (amended): for every event other than `McpConnected` and
`McpDisconnected`, the SSE `data` object agrees with the WebSocket JSON on every
field except the independently generated `timestamp` and the additional optional
`html`; for `McpConnected`/`McpDisconnected` the SSE type discriminator is
"connected"/"disconnected" while the WebSocket one is
"mcp_connected"/"mcp_disconnected". -/
theorem ws_sse_payload_agreement (parse : String → Option JVal) (tw tse hms : String) :
    (∀ e : SystemEvent, e ≠ .McpConnected → e ≠ .McpDisconnected →
      (sseData parse tse hms e).fields.filter
          (fun p => p.1 != "timestamp" && p.1 != "html") =
        (wsEventJson parse tw e).fields.filter
          (fun p => p.1 != "timestamp" && p.1 != "html"))
    ∧ getField (sseData parse tse hms .McpConnected).fields "type"
        = some (.str "connected")
    ∧ getField (wsEventJson parse tw .McpConnected).fields "type"
        = some (.str "mcp_connected")
    ∧ getField (sseData parse tse hms .McpDisconnected).fields "type"
        = some (.str "disconnected")
    ∧ getField (wsEventJson parse tw .McpDisconnected).fields "type"
        = some (.str "mcp_disconnected") := by
  refine ⟨?_, rfl, rfl, rfl, rfl⟩
  intro e h1 h2
  cases e with
  | McpConnected => exact absurd rfl h1
  | McpDisconnected => exact absurd rfl h2
  | ToolCalled name id => rfl
  | ResourceAccessed uri => rfl
  | Error message => rfl
  | Custom payload =>
      rcases hp : parse payload with _ | j <;>
        simp [sseData, wsEventJson, hp, JVal.fields]

/-- Splitting of a run of rate-limit checks at a list append. -/
theorem runCalls_append (rl : WebSocketRateLimiter) (st : RLState) (ip : IpAddr)
    (xs ys : List Nat) :
    runCalls rl st ip (xs ++ ys) =
      ((runCalls rl st ip xs).1 ++ (runCalls rl (runCalls rl st ip xs).2 ip ys).1,
       (runCalls rl (runCalls rl st ip xs).2 ip ys).2) := by
  induction xs generalizing st with
  | nil => simp [runCalls]
  | cons t ts ih => simp [runCalls, ih]

/-- Helper: a run of checks whose instants all lie within the window of every
recorded and every later instant, and whose total count stays within the limit,
accepts every call and records every instant in order. -/
theorem runCalls_all_allowed (rl : WebSocketRateLimiter) (ip : IpAddr)
    (ts : List Nat) (cur : List Nat) (st : RLState) (hst : st ip = cur)
    (hlen : cur.length + ts.length ≤ rl.max_connections_per_ip)
    (hwin : ∀ a ∈ cur ++ ts, ∀ b ∈ ts, b - a < rl.time_window) :
    (runCalls rl st ip ts).1 = List.replicate ts.length true
    ∧ (runCalls rl st ip ts).2 ip = cur ++ ts := by
  induction ts generalizing cur st with
  | nil =>
      simp [runCalls, hst]
  | cons t ts ih =>
      have hprune : pruneEntry rl.time_window t (st ip) = cur := by
        rw [hst]
        unfold pruneEntry
        rw [List.filter_eq_self]
        intro a ha
        simpa using hwin a (by simp [ha]) t (by simp)
      have hlen' : cur.length + (ts.length + 1) ≤ rl.max_connections_per_ip := by
        simpa using hlen
      have hlt : ¬ rl.max_connections_per_ip ≤ cur.length := by
        omega
      have hcheck : check_rate_limit rl st ip t =
          (true, fun a => if a = ip then cur ++ [t] else st a) := by
        unfold check_rate_limit
        rw [hprune]
        simp [hlt]
      have hst' : (fun a => if a = ip then cur ++ [t] else st a) ip = cur ++ [t] := by
        simp
      have hih := ih (cur ++ [t]) (fun a => if a = ip then cur ++ [t] else st a) hst'
        (by simpa using by omega)
        (by
          intro a ha b hb
          refine hwin a ?_ b (by simp [hb])
          rcases List.mem_append.mp ha with h | h
          · rcases List.mem_append.mp h with h' | h'
            · exact List.mem_append.mpr (Or.inl h')
            · simp at h'
              simp [h']
          · exact List.mem_append.mpr (Or.inr (by simp [h])))
      rw [runCalls, hcheck]
      refine ⟨?_, by simpa using hih.2⟩
      simp only [List.length_cons, List.replicate_succ]
      exact congrArg (true :: ·) (by simpa using hih.1)

/-- Claim C6: with limit K and window W, K+1 checks for the same address whose
instants all lie inside one window accept the first K calls and reject the
(K+1)th; a later call, made once more than the window has elapsed since every
in-window instant, is accepted again. -/
theorem rate_limiter_window (rl : WebSocketRateLimiter) (ip : IpAddr) (st : RLState)
    (hst : st ip = [])
    (hK : 0 < rl.max_connections_per_ip)
    (ts : List Nat) (tl : Nat) (hlen : ts.length = rl.max_connections_per_ip)
    (hwin : ∀ a ∈ ts ++ [tl], ∀ b ∈ ts ++ [tl], b - a < rl.time_window)
    (T : Nat) (hT : ∀ a ∈ ts, rl.time_window < T - a) :
    (runCalls rl st ip (ts ++ [tl])).1 =
      List.replicate rl.max_connections_per_ip true ++ [false]
    ∧ (check_rate_limit rl (runCalls rl st ip (ts ++ [tl])).2 ip T).1 = true := by
  have hfirst := runCalls_all_allowed rl ip ts [] st hst
    (by simp [hlen])
    (by
      intro a ha b hb
      exact hwin a (by simp at ha; simp [ha]) b (by simp [hb]))
  have hmid : (runCalls rl st ip ts).2 ip = ts := by simpa using hfirst.2
  have hprune : pruneEntry rl.time_window tl ((runCalls rl st ip ts).2 ip) = ts := by
    rw [hmid]
    unfold pruneEntry
    rw [List.filter_eq_self]
    intro a ha
    simpa using hwin a (by simp [ha]) tl (by simp)
  have hfull : rl.max_connections_per_ip ≤
      (pruneEntry rl.time_window tl ((runCalls rl st ip ts).2 ip)).length := by
    rw [hprune, hlen]
  have hlast : check_rate_limit rl (runCalls rl st ip ts).2 ip tl =
      (false, fun a => if a = ip then ts else (runCalls rl st ip ts).2 a) := by
    unfold check_rate_limit
    rw [hprune, if_pos (le_of_eq hlen.symm)]
  rw [runCalls_append]
  constructor
  · rw [hfirst.1, hlen, runCalls, hlast]
    simp [runCalls]
  · have hfin : (runCalls rl (runCalls rl st ip ts).2 ip [tl]).2 ip = ts := by
      simp [runCalls, hlast]
    unfold check_rate_limit
    rw [hfin]
    have hempty : pruneEntry rl.time_window T ts = [] := by
      unfold pruneEntry
      rw [List.filter_eq_nil_iff]
      intro a ha
      have h2 := hT a ha
      simp only [decide_eq_true_eq, not_lt]
      omega
    rw [hempty]
    have hz : ¬ rl.max_connections_per_ip ≤ ([] : List Nat).length := by
      simp only [List.length_nil, Nat.le_zero]
      omega
    rw [if_neg hz]

/-- Claim C6 (witness): the spec scenario with limit 2 and window 60; three
rapid calls from one address yield allowed, allowed, rate-limited, and a call
after the window (at instant 100) is allowed again. -/
theorem rate_limiter_window_witness :
    (runCalls ⟨2, 60⟩ (fun _ => ([] : List Nat)) 0 ([0, 1] ++ [2])).1 =
      List.replicate 2 true ++ [false]
    ∧ (check_rate_limit ⟨2, 60⟩
        (runCalls ⟨2, 60⟩ (fun _ => ([] : List Nat)) 0 ([0, 1] ++ [2])).2 0 100).1
        = true :=
  rate_limiter_window ⟨2, 60⟩ 0 (fun _ => []) rfl (by decide) [0, 1] 2 rfl
    (by decide) 100 (by decide)

/-- Claim C10: a rejected rate-limit check records no new timestamp: the
address's entry afterwards is exactly the pruned entry, and every other
address's entry is untouched. -/
theorem reject_records_nothing (rl : WebSocketRateLimiter) (st : RLState)
    (ip : IpAddr) (now : Nat)
    (hrej : (check_rate_limit rl st ip now).1 = false) :
    (check_rate_limit rl st ip now).2 ip = pruneEntry rl.time_window now (st ip)
    ∧ ∀ a, a ≠ ip → (check_rate_limit rl st ip now).2 a = st a := by
  unfold check_rate_limit at *
  by_cases h : rl.max_connections_per_ip ≤
      (pruneEntry rl.time_window now (st ip)).length
  · simp only [h, if_true, if_pos]
    exact ⟨by simp, fun a ha => by simp [ha]⟩
  · simp [h] at hrej

/-- Claim C10 (witness): with limit 0 every check is rejected; the rejected
check at instant 5 leaves the (empty) pruned entry in place. -/
theorem reject_records_nothing_witness :
    (check_rate_limit ⟨0, 60⟩ (fun _ => ([] : List Nat)) 0 5).2 0 =
      pruneEntry 60 5 [] :=
  (reject_records_nothing ⟨0, 60⟩ (fun _ => []) 0 5 rfl).1

end Mcp
